import Mathlib

/-!
Verification development for the Windows machine-config bootstrapper's
translation-and-reconciliation engine.

The production `bootstrapper` package is modelled here as pure Lean functions
over `List Char` byte strings: the data-URI decoder, the file translator, the
kubelet-config rewriter, the cloud-config extractor, the ignition walker, and
the CNI installer/reconciler, together with an explicit file-system and
service-table state for the effectful parts.
-/

/-- Byte strings are modelled as lists of characters. -/
abbrev Chars := List Char

/-- Coercion from string literals to the character-list representation. -/
def str (s : String) : Chars := s.data

/-- Does `s` begin with the pattern `p`? -/
def begins : Chars → Chars → Bool
  | _, [] => true
  | [], _ :: _ => false
  | a :: s, b :: p => if a = b then begins s p else false

/-- Tail-recursive worker for substring search, carrying the current index. -/
def findSubGo : Nat → Chars → Chars → Option Nat
  | i, s, pat =>
    match s with
    | [] => if pat = [] then some i else none
    | _ :: rest =>
      if begins s pat then some i
      else findSubGo (i + 1) rest pat

/-- Index of the first occurrence of pattern `pat` in `s`, if any. -/
def findSub (s pat : Chars) : Option Nat := findSubGo 0 s pat

/-- Does `pat` occur anywhere inside `s`? -/
def containsSub (s pat : Chars) : Bool := (findSub s pat).isSome

/-- Replace the first occurrence of `pat` in `s` by `repl`; `none` when `pat`
is absent. -/
def replaceFirst (s pat repl : Chars) : Option Chars :=
  (findSub s pat).map fun i => s.take i ++ repl ++ s.drop (i + pat.length)

/-- First-match association-list lookup keyed by character lists. -/
def alookup {α : Type} : List (Chars × α) → Chars → Option α
  | [], _ => none
  | (k, v) :: rest, q => if k = q then some v else alookup rest q

/-- Split on single space characters; adjacent separators yield empty tokens,
so joining with a space is a left inverse. -/
def splitSp : Chars → List Chars
  | [] => [[]]
  | c :: rest =>
    match splitSp rest with
    | [] => [[]]
    | h :: t => if c = ' ' then [] :: h :: t else (c :: h) :: t

/-- Join tokens with single spaces. -/
def joinSp : List Chars → Chars
  | [] => []
  | t :: ts =>
    match ts with
    | [] => t
    | _ :: _ => t ++ ' ' :: joinSp ts

/-- Whitespace characters recognised when tokenising a systemd command line. -/
def isWs (c : Char) : Bool := c = ' ' ∨ c = '\n' ∨ c = '\t' ∨ c = '\r'

/-- Tail-recursive worker splitting on whitespace: accumulates the reversed
current token and the reversed token list. -/
def splitWsGo : List Chars → Chars → Chars → List Chars
  | toks, cur, [] => (cur.reverse :: toks).reverse
  | toks, cur, c :: rest =>
    if isWs c then splitWsGo (cur.reverse :: toks) [] rest
    else splitWsGo toks (c :: cur) rest

/-- Split on whitespace runs, as used to tokenise an ExecStart block. -/
def splitWsAll (l : Chars) : List Chars := splitWsGo [] [] l

/-- Whitespace tokens of a command line, empty tokens dropped. -/
def wsTokens (l : Chars) : List Chars := (splitWsAll l).filter (fun t => !t.isEmpty)

/-- Tail-recursive worker splitting on newlines. -/
def splitNlGo : List Chars → Chars → Chars → List Chars
  | lns, cur, [] => (cur.reverse :: lns).reverse
  | lns, cur, c :: rest =>
    if c = '\n' then splitNlGo (cur.reverse :: lns) [] rest
    else splitNlGo lns (c :: cur) rest

/-- Split on newline characters. -/
def splitNl (l : Chars) : List Chars := splitNlGo [] [] l

/-- Intercalate a separator between chunks. -/
def joinWith (sep : Chars) : List Chars → Chars
  | [] => []
  | t :: ts =>
    match ts with
    | [] => t
    | _ :: _ => t ++ sep ++ joinWith sep ts

/-- The file name of a POSIX path: everything after the last slash. -/
def baseName (p : Chars) : Chars :=
  p.foldl (fun acc c => if c = '/' then [] else acc ++ [c]) []

/-- Hexadecimal value of one digit character. -/
def hexVal (c : Char) : Option Nat :=
  if '0' ≤ c ∧ c ≤ '9' then some (c.toNat - '0'.toNat)
  else if 'a' ≤ c ∧ c ≤ 'f' then some (c.toNat - 'a'.toNat + 10)
  else if 'A' ≤ c ∧ c ≤ 'F' then some (c.toNat - 'A'.toNat + 10)
  else none

/-- Tail-recursive worker for percent-decoding, accumulating decoded bytes in
reverse. -/
def percentDecodeGo : Chars → Chars → Option Chars
  | acc, [] => some acc.reverse
  | acc, '%' :: a :: b :: rest =>
    match hexVal a, hexVal b with
    | some ha, some hb => percentDecodeGo (Char.ofNat (16 * ha + hb) :: acc) rest
    | _, _ => none
  | _, '%' :: _ :: [] => none
  | _, '%' :: [] => none
  | acc, c :: rest => percentDecodeGo (c :: acc) rest

/-- Percent-decoding of a URI payload; fails on malformed escapes. -/
def percentDecode (l : Chars) : Option Chars := percentDecodeGo [] l

/-- Modelled from the spec: the Data-URI Decoder (spec section 4.1, absent from
src/). Accepts only the comma-prefixed percent-encoded variant
`data:,<payload>` and returns the decoded bytes, failing on a missing prefix or
an invalid percent escape. -/
def dataURIDecode (s : Chars) : Option Chars :=
  if begins s (str "data:,") then percentDecode (s.drop 6) else none

/-- Modelled from the spec: the File Translator `translateFile` (spec section
4.2, absent from src/). Decodes the data URI and, when a transform is supplied,
applies it to the decoded bytes; otherwise the decoded bytes are returned
unchanged. -/
def translateFile (source : Chars) (fn : Option (Chars → Option Chars)) : Option Chars :=
  (dataURIDecode source).bind fun bs =>
    match fn with
    | none => some bs
    | some f => f bs

/-! ### Kubelet Config Rewriter -/

/-- The POSIX certificate-authority path rewritten by the config rewriter. -/
def caPosix : Chars := str "/etc/kubernetes/kubelet-ca.crt"

/-- JSON-escape backslashes (each backslash byte becomes two). -/
def escBack (l : Chars) : Chars :=
  l.foldr (fun c acc => if c = '\\' then '\\' :: '\\' :: acc else c :: acc) []

/-- The JSON-escaped Windows certificate-authority path rooted at the install
directory. -/
def winCAPath (installDir : Chars) : Chars := escBack (installDir ++ str "\\kubelet-ca.crt")

/-- The Linux cgroup-driver field as it appears in the JSON bytes. -/
def cgroupSystemd : Chars := str "\"cgroupDriver\":\"systemd\""

/-- The Windows cgroup-driver field. -/
def cgroupCgroupfs : Chars := str "\"cgroupDriver\":\"cgroupfs\""

/-- The volume-stats-aggregation-period key together with the opening quote of
its string value. -/
def volKeyQ : Chars := str "\"volumeStatsAggPeriod\":\""

/-- The `cgroupsPerQOS: false` field inserted after the
volume-stats-aggregation-period field. -/
def qosIns : Chars := str ",\"cgroupsPerQOS\":false"

/-- The `enforceNodeAllocatable: []` field appended at the end of the top-level
object, together with the restored closing brace. -/
def enfTail : Chars := str ",\"enforceNodeAllocatable\":[]\x7d"

/-- Insert `qosIns` immediately after the closing quote of the
volume-stats-aggregation-period field's string value. -/
def insertQOS (s : Chars) : Option Chars :=
  (findSub s volKeyQ).bind fun i =>
    (findSub (s.drop (i + volKeyQ.length)) (str "\"")).map fun j =>
      s.take (i + volKeyQ.length + j + 1) ++ qosIns ++ s.drop (i + volKeyQ.length + j + 1)

/-- Modelled from the spec: the Kubelet Config Rewriter
`prepKubeletConfForWindows` (spec section 4.3, absent from src/). Textual
patching that preserves all other bytes: the certificate-authority path is
rewritten to the Windows install directory, the cgroup driver is switched to
`cgroupfs`, `cgroupsPerQOS: false` is inserted immediately after the
volume-stats-aggregation-period field, and `enforceNodeAllocatable: []` is
appended at the end of the top-level object; it fails when a required anchor
field is absent. -/
def prepKubeletConfForWindows (installDir : Chars) (s : Chars) : Option Chars := do
  let s1 ← replaceFirst s caPosix (winCAPath installDir)
  let s2 ← replaceFirst s1 cgroupSystemd cgroupCgroupfs
  let s3 ← insertQOS s2
  match s3.getLast? with
  | some '\x7d' => some (s3.dropLast ++ enfTail)
  | _ => none

/-! ### Cloud-Config Extractor -/

/-- Parse the entries of an embedded cloud-provider JSON object into an ordered
key/value sequence; keys are unquoted, string values lose their quotes, and
other scalar values keep their JSON textual form. Driven by fuel to make the
recursion structural. -/
def ccEntriesF : Nat → Chars → Option (List (Chars × Chars))
  | 0, _ => none
  | n + 1, s =>
    let s1 := s.dropWhile (fun c => c = '\n' ∨ c = '\t' ∨ c = ' ' ∨ c = ',')
    match s1 with
    | '\x7d' :: _ => some []
    | '"' :: r =>
      let k := r.takeWhile (fun c => !(c = '"'))
      match (r.dropWhile (fun c => !(c = '"'))).drop 1 with
      | ':' :: r3 =>
        let r4 := r3.dropWhile (fun c => c = ' ')
        match r4 with
        | '"' :: r5 =>
          let v := r5.takeWhile (fun c => !(c = '"'))
          (ccEntriesF n ((r5.dropWhile (fun c => !(c = '"'))).drop 1)).map ((k, v) :: ·)
        | _ =>
          let v := r4.takeWhile (fun c => !(c = ',' ∨ c = '\n' ∨ c = '\x7d'))
          (ccEntriesF n (r4.dropWhile (fun c => !(c = ',' ∨ c = '\n' ∨ c = '\x7d')))).map
            ((k, v) :: ·)
      | _ => none
    | _ => none

/-- Modelled from the spec: parsing of the decoded cloud-provider configuration
(a JSON object of scalar values, spec section 4.4, absent from src/) into the
ordered key/value sequence of the source document. -/
def cloudConfParse (s : Chars) : Option (List (Chars × Chars)) :=
  match s with
  | '\x7b' :: rest => ccEntriesF (rest.length + 1) rest
  | _ => none

/-- Modelled from the spec: rendering of the cloud-provider configuration as a
line-oriented file, one tab-indented `key: value` entry per line in the source
document's key order, inside braces (spec section 4.4). -/
def renderCloudConf (ps : List (Chars × Chars)) : Chars :=
  str "\x7b\n" ++ joinWith (str ",\n") (ps.map fun kv => '\t' :: (kv.1 ++ str ": " ++ kv.2))
    ++ str "\n\x7d"

/-- The kubelet argument key recorded by the cloud-config extractor. -/
def ccKeyChars : Chars := str "cloud-config"

/-- The path the rendered cloud-provider configuration is written to. -/
def ccDest (installDir : Chars) : Chars := installDir ++ str "/cloud.conf"

/-- Modelled from the spec: the Cloud-Config Extractor applied to one embedded
file source (spec section 4.4, absent from src/): decode the data URI, parse
the JSON object, render the line-oriented form. -/
def cloudConfTranslate (source : Chars) : Option Chars :=
  (dataURIDecode source).bind fun payload => (cloudConfParse payload).map renderCloudConf

/-! ### Ignition Walker -/

/-- One embedded file reference of the ignition document: its target path and
its data-URI source. -/
structure FileEntry where
  path : Chars
  source : Chars
deriving DecidableEq

/-- One systemd unit of the ignition document: its name and the assembled
ExecStart command-line block of its unit text. -/
structure UnitEntry where
  name : Chars
  execStart : Chars
deriving DecidableEq

/-- Parsed form of the machine-provisioning payload (spec section 3): an
ordered sequence of file entries and an ordered sequence of unit entries. -/
structure IgnitionDoc where
  files : List FileEntry
  units : List UnitEntry
deriving DecidableEq

/-- A caller-supplied translation rule: the target path the translated bytes
are written to and the optional transform applied to the decoded bytes. -/
structure FileTranslation where
  dest : Chars
  fn : Option (Chars → Option Chars)

/-- Result of walking an ignition document: the files written under the
install directory and the accumulated kubelet argument map. -/
structure ParseResult where
  writtenFiles : List (Chars × Chars)
  kubeletArgs : List (Chars × Chars)
deriving DecidableEq

/-- Errors of the ignition walker (spec section 7). -/
inductive IgnErr
  | invalidArgument
  | translationError
deriving DecidableEq

deriving instance DecidableEq for Except

/-- The name of the kubelet systemd unit. -/
def kubeletUnitName : Chars := str "kubelet.service"

/-- Split one `--flag[=value]` token into a key (without leading dashes) and a
value (empty for a bare flag). -/
def argOfTok (t : Chars) : Option (Chars × Chars) :=
  if begins t (str "--") then
    some ((t.drop 2).takeWhile (fun c => !(c = '=')),
      ((t.drop 2).dropWhile (fun c => !(c = '='))).drop 1)
  else none

/-- Modelled from the spec: extraction of the kubelet unit's ExecStart command
line into individual `--flag[=value]` argument pairs (spec section 4.5, absent
from src/). Tokens that are not flags (the binary path, continuation
backslashes) are ignored. -/
def kubeletUnitArgs (doc : IgnitionDoc) : List (Chars × Chars) :=
  match doc.units.find? (fun u => decide (u.name = kubeletUnitName)) with
  | none => []
  | some u => (wsTokens u.execStart).filterMap argOfTok

/-- Modelled from the spec: validation of one extracted kubelet argument (spec
section 4.5): a `--cloud-config=<path>` value whose base name is empty (such
as `/`) is invalid. -/
def validArg (kv : Chars × Chars) : Bool :=
  if kv.1 = ccKeyChars then (if baseName kv.2 = ([] : Chars) then false else true) else true

/-- The kubelet argument map accumulated from the unit's flags. The
cloud-config entry is recorded only by the cloud-config extractor when the
embedded file is actually produced (spec section 4.4: when the file is absent,
neither the file nor the argument is produced), so the unit's own cloud-config
flag is used only for validation and for locating the embedded file. -/
def initialArgs (args : List (Chars × Chars)) : List (Chars × Chars) :=
  args.filter (fun kv => decide (kv.1 ≠ ccKeyChars))

/-- Walk the file entries: a file whose path matches the kubelet unit's
declared cloud-config path is handled by the built-in Cloud-Config Extractor
(writing `<installDir>/cloud.conf` and recording the `cloud-config` kubelet
argument); otherwise a file matched by a caller-supplied translation rule is
translated and written to the rule's destination; unmatched files are
ignored. -/
def processFiles (installDir : Chars) (ccPath : Option Chars)
    (rules : List (Chars × FileTranslation)) :
    List FileEntry → ParseResult → Except IgnErr ParseResult
  | [], acc => .ok acc
  | f :: rest, acc =>
    if ccPath = some f.path then
      match cloudConfTranslate f.source with
      | some contents =>
        processFiles installDir ccPath rules rest
          ⟨(ccDest installDir, contents) :: acc.writtenFiles,
            (ccKeyChars, ccDest installDir) :: acc.kubeletArgs⟩
      | none => .error .translationError
    else
      match alookup rules f.path with
      | some ft =>
        match translateFile f.source ft.fn with
        | some outBytes =>
          processFiles installDir ccPath rules rest
            ⟨(ft.dest, outBytes) :: acc.writtenFiles, acc.kubeletArgs⟩
        | none => .error .translationError
      | none => processFiles installDir ccPath rules rest acc

/-- Modelled from the spec: the Ignition Walker `parseIgnitionFileContents`
(spec section 4.5, absent from src/). It extracts the kubelet unit's
`--flag[=value]` tokens, validates every `--cloud-config` value (failing with
`InvalidArgumentError` on an empty base name), and walks the file entries,
where the cloud-config handling is built in: the file whose path matches the
unit's declared cloud-config path is extracted regardless of the
caller-supplied rules table (as exercised by TestCloudConfExtraction and
TestCloudConfNotPresent, which pass an empty table). -/
def parseIgnitionFileContents (installDir : Chars) (doc : IgnitionDoc)
    (rules : List (Chars × FileTranslation)) : Except IgnErr ParseResult :=
  let args := kubeletUnitArgs doc
  if args.all validArg then
    processFiles installDir (alookup args ccKeyChars) rules doc.files ⟨[], initialArgs args⟩
  else .error .invalidArgument

/-! ### CNI Installer/Reconciler -/

/-- A node of the modelled file system: a regular file with contents, or a
directory listing the names of the files directly under it. -/
inductive FSNode
  | file (contents : Chars)
  | dir (names : List Chars)
deriving DecidableEq

/-- The modelled file system: an association of paths to nodes, newest entry
first. -/
structure FileSys where
  entries : List (Chars × FSNode)
deriving DecidableEq

/-- Look up the node at a path. -/
def FileSys.stat (fs : FileSys) (p : Chars) : Option FSNode := alookup fs.entries p

/-- Create or overwrite the node at a path. -/
def FileSys.write (fs : FileSys) (p : Chars) (n : FSNode) : FileSys := ⟨(p, n) :: fs.entries⟩

/-- Is the node at this stat result a regular file? -/
def isFileNode : Option FSNode → Bool
  | some (.file _) => true
  | _ => false

/-- Is the node at this stat result a directory? -/
def isDirNode : Option FSNode → Bool
  | some (.dir _) => true
  | _ => false

/-- Join two path components with a slash. -/
def joinPath (a b : Chars) : Chars := a ++ '/' :: b

/-- Error kinds of the CNI installer/reconciler (spec section 7). -/
inductive CNIErrKind
  | installDirErr
  | cniPathErr
  | cniConfigErr
  | copyErr
  | servicePreconditionErr
deriving DecidableEq

/-- A CNI installer error: its kind and its message. -/
structure CNIErr where
  kind : CNIErrKind
  msg : Chars
deriving DecidableEq

/-- Does the result carry an error whose message mentions `needle`? -/
def errMentions {α : Type} (r : Except CNIErr α) (needle : Chars) : Bool :=
  match r with
  | .error e => containsSub e.msg needle
  | .ok _ => false

/-- The bootstrapper context: the installation layout and the CNI source
paths, mirroring the fields of the Go `winNodeBootstrapper` struct. -/
structure winNodeBootstrapper where
  installDir : Chars
  cniPath : Chars
  cniConfig : Chars
  cniInstallDir : Chars
  cniConfigInstallPath : Chars
deriving DecidableEq

/-- Modelled from the spec: construction of the bootstrapper context
(`NewWinNodeBootstrapper`, absent from src/): `cniInstallDir` is
`<installDir>/cni` and `cniConfigInstallPath` is `<installDir>/cni/config`
(spec section 3, InstallLayout). -/
def mkBootstrapper (installDir cniPath cniConfig : Chars) : winNodeBootstrapper :=
  ⟨installDir, cniPath, cniConfig, joinPath installDir (str "cni"),
    joinPath (joinPath installDir (str "cni")) (str "config")⟩

/-- Modelled from the spec: `checkCNIInputs` (spec section 4.6, absent from
src/). Front-loaded precondition checks, in order: the install directory must
exist, the CNI binary source path must exist and be a directory (not a file),
and the CNI config source path must exist and be a file (not a directory). -/
def checkCNIInputs (b : winNodeBootstrapper) (fs : FileSys) : Except CNIErr Unit :=
  match fs.stat b.installDir with
  | none => .error ⟨.installDirErr, str "error accessing install directory " ++ b.installDir⟩
  | some _ =>
    match fs.stat b.cniPath with
    | none => .error ⟨.cniPathErr, str "error accessing CNI path " ++ b.cniPath⟩
    | some (.file _) => .error ⟨.cniPathErr, str "CNI path cannot be a file " ++ b.cniPath⟩
    | some (.dir _) =>
      match fs.stat b.cniConfig with
      | none => .error ⟨.cniConfigErr, str "error accessing CNI config " ++ b.cniConfig⟩
      | some (.dir _) =>
        .error ⟨.cniConfigErr, str "CNI config cannot be a directory " ++ b.cniConfig⟩
      | some (.file _) => .ok ()

/-- Modelled from the spec: `ensureCNIDirIsPresent` (spec section 4.6, absent
from src/): creates the nested CNI installation directories when absent, a
no-op when already present. -/
def ensureCNIDirIsPresent (b : winNodeBootstrapper) (fs : FileSys) : FileSys :=
  let fs1 := if (fs.stat b.cniInstallDir).isSome then fs else fs.write b.cniInstallDir (.dir [])
  if (fs1.stat b.cniConfigInstallPath).isSome then fs1
  else fs1.write b.cniConfigInstallPath (.dir [])

/-- Copy the listed files from under `src` into `dst`. -/
def copyFilesFrom (src dst : Chars) : List Chars → FileSys → Except CNIErr FileSys
  | [], fs => .ok fs
  | n :: rest, fs =>
    match fs.stat (joinPath src n) with
    | some (.file c) => copyFilesFrom src dst rest (fs.write (joinPath dst n) (.file c))
    | _ => .error ⟨.copyErr, str "error copying " ++ joinPath src n⟩

/-- Modelled from the spec: `copyCNIFiles` (spec section 4.6, absent from
src/). Reads the CNI binary source directory (failing with an
`error reading CNI path` message when it cannot be read as a directory and
with a `no files present` message when it is empty), copies every file found
directly under it into `cniInstallDir`, and copies the single CNI config
source file into `cniConfigInstallPath`. -/
def copyCNIFiles (b : winNodeBootstrapper) (fs : FileSys) : Except CNIErr FileSys :=
  match fs.stat b.cniPath with
  | some (.dir names) =>
    match names with
    | [] => .error ⟨.cniPathErr, str "no files present in the CNI directory " ++ b.cniPath⟩
    | _ :: _ =>
      match copyFilesFrom b.cniPath b.cniInstallDir names fs with
      | .error e => .error e
      | .ok fs1 =>
        match fs1.stat b.cniConfig with
        | some (.file c) =>
          .ok (fs1.write (joinPath b.cniConfigInstallPath (baseName b.cniConfig)) (.file c))
        | _ => .error ⟨.copyErr, str "error copying CNI config " ++ b.cniConfig⟩
  | _ => .error ⟨.cniPathErr, str "error reading CNI path " ++ b.cniPath⟩

/-! ### Kubelet argument reconciliation -/

/-- The canonical `--resolv-conf=""` token. -/
def resolvTok : Chars := str "--resolv-conf=\"\""

/-- The canonical `--network-plugin=cni` token. -/
def netPluginTok : Chars := str "--network-plugin=cni"

/-- The canonical CNI binary directory token. -/
def binDirTok (binDir : Chars) : Chars := str "--cni-bin-dir=" ++ binDir

/-- The canonical CNI config directory token. -/
def confDirTok (confDir : Chars) : Chars := str "--cni-conf-dir=" ++ confDir

/-- The flag stems stripped from the command line before the canonical values
are appended. -/
def cniFlagStems : List Chars :=
  [str "--resolv-conf", str "--network-plugin", str "--cni-bin-dir", str "--cni-conf-dir"]

/-- A command-line token survives the strip phase when it carries none of the
CNI-related flag stems. -/
def keepTok (t : Chars) : Bool := !(cniFlagStems.any (fun p => begins t p))

/-- The canonical CNI tokens appended after stripping. -/
def canonToks (binDir confDir : Chars) : List Chars :=
  [resolvTok, netPluginTok, binDirTok binDir, confDirTok confDir]

/-- Modelled from the spec: `updateKubeletArgsForCNI` (spec section 4.6,
absent from src/). Splits the kubelet start command line on spaces, strips any
existing occurrence of the four CNI-related flags regardless of their prior
values, and appends the canonical values. -/
def updateKubeletArgsForCNI (binDir confDir cmd : Chars) : Chars :=
  joinSp ((splitSp cmd).filter keepTok ++ canonToks binDir confDir)

/-! ### Service orchestration -/

/-- The kubelet Windows service name. -/
def kubeletSvcName : Chars := str "kubelet"

/-- The observable node state ConfigureCNI acts on: the file system and the
Windows service table (service name to its start command). -/
structure CNIState where
  fs : FileSys
  services : List (Chars × Chars)
deriving DecidableEq

/-- Record the new start command of a service. -/
def setSvcCmd (svcs : List (Chars × Chars)) (n c : Chars) : List (Chars × Chars) :=
  (n, c) :: svcs

/-- Modelled from the spec: `ConfigureCNI` (spec section 4.6, absent from
src/). Requires the kubelet service to exist (failing with a
`kubelet service is not present` message otherwise — the service is a
precondition and is never created here), then runs checkCNIInputs,
ensureCNIDirIsPresent and copyCNIFiles, reconciles the service's start command
with updateKubeletArgsForCNI, and persists it back to the service table. -/
def ConfigureCNI (b : winNodeBootstrapper) (st : CNIState) : Except CNIErr CNIState :=
  match alookup st.services kubeletSvcName with
  | none => .error ⟨.servicePreconditionErr, str "kubelet service is not present"⟩
  | some cmd =>
    match checkCNIInputs b st.fs with
    | .error e => .error e
    | .ok _ =>
      match copyCNIFiles b (ensureCNIDirIsPresent b st.fs) with
      | .error e => .error e
      | .ok fs2 =>
        .ok ⟨fs2, setSvcCmd st.services kubeletSvcName
          (updateKubeletArgsForCNI b.cniInstallDir b.cniConfigInstallPath cmd)⟩

/-! ### Generic lemmas about the string infrastructure -/

theorem take_prefix_append (a b : Chars) : (a ++ b).take a.length = a :=
  List.take_left a b

theorem drop_prefix_append (a b : Chars) : (a ++ b).drop a.length = b :=
  List.drop_left a b

theorem replaceFirst_eq (s A B pat repl : Chars) (hs : s = A ++ pat ++ B)
    (h : findSub s pat = some A.length) :
    replaceFirst s pat repl = some (A ++ repl ++ B) := by
  unfold replaceFirst
  rw [h, Option.map_some']
  subst hs
  have t1 : ((A ++ pat) ++ B).take A.length = A := by
    rw [List.append_assoc]
    exact take_prefix_append A (pat ++ B)
  have t2 : ((A ++ pat) ++ B).drop (A.length + pat.length) = B := by
    rw [← List.length_append]
    exact drop_prefix_append (A ++ pat) B
  rw [t1, t2]

theorem findSubGo_single (c : Char) (w : Chars) :
    ∀ (v : Chars) (i : Nat), c ∉ v → findSubGo i (v ++ c :: w) [c] = some (i + v.length) := by
  intro v
  induction v with
  | nil =>
    intro i _
    simp [findSubGo, begins]
  | cons d v ih =>
    intro i h
    have hdc : ¬(d = c) := fun hdc => h (hdc ▸ List.mem_cons_self d v)
    have hcv : c ∉ v := fun hm => h (List.mem_cons_of_mem d hm)
    have hb : begins (d :: (v ++ c :: w)) [c] = false := by
      simp [begins]
      intro hcd
      exact hdc hcd
    rw [List.cons_append, findSubGo, hb]
    simp only [Bool.false_eq_true, if_false]
    rw [ih (i + 1) hcv]
    simp only [List.length_cons, Option.some.injEq]
    omega

theorem findSub_single (c : Char) (v w : Chars) (h : c ∉ v) :
    findSub (v ++ c :: w) [c] = some v.length := by
  have := findSubGo_single c w v 0 h
  simpa [findSub] using this

theorem insertQOS_eq (s C v D : Chars) (hs : s = C ++ volKeyQ ++ (v ++ '"' :: D))
    (hC : findSub s volKeyQ = some C.length) (hv : '"' ∉ v) :
    insertQOS s = some (((C ++ volKeyQ) ++ (v ++ ['"'])) ++ qosIns ++ D) := by
  unfold insertQOS
  rw [hC]
  simp only [Option.some_bind]
  have hdrop : s.drop (C.length + volKeyQ.length) = v ++ '"' :: D := by
    rw [hs, ← List.length_append]
    exact drop_prefix_append (C ++ volKeyQ) (v ++ '"' :: D)
  rw [hdrop]
  have hq : str "\"" = ['"'] := rfl
  rw [hq, findSub_single '"' v D hv]
  simp only [Option.map_some']
  have hsplit : s = ((C ++ volKeyQ) ++ (v ++ ['"'])) ++ D := by
    rw [hs]
    simp [List.append_assoc]
  have hlen : ((C ++ volKeyQ) ++ (v ++ ['"'])).length
      = C.length + volKeyQ.length + v.length + 1 := by
    simp [List.length_append]
    omega
  have htake : s.take (C.length + volKeyQ.length + v.length + 1)
      = (C ++ volKeyQ) ++ (v ++ ['"']) := by
    have h0 := take_prefix_append ((C ++ volKeyQ) ++ (v ++ ['"'])) D
    rw [hlen] at h0
    rw [hsplit, h0]
  have hdrop2 : s.drop (C.length + volKeyQ.length + v.length + 1) = D := by
    have h0 := drop_prefix_append ((C ++ volKeyQ) ++ (v ++ ['"'])) D
    rw [hlen] at h0
    rw [hsplit, h0]
  rw [htake, hdrop2]

/-- The shape of a kubelet configuration containing the three anchor fields of
the rewrite, in their serialisation order: arbitrary surrounding bytes
`p1..p4`, the certificate-authority path, the volume-stats-aggregation-period
field with string value `v`, the cgroup-driver field, and the closing brace of
the top-level object. -/
def kubeConfShape (p1 p2 p3 p4 v ca cg : Chars) : Chars :=
  p1 ++ (ca ++ (p2 ++ (volKeyQ ++ (v ++ ('"' :: (p3 ++ (cg ++ (p4 ++ ['\x7d']))))))))

/-- The rewritten form: the same bytes with exactly the four edits applied. -/
def kubeConfResult (d p1 p2 p3 p4 v : Chars) : Chars :=
  p1 ++ (winCAPath d ++ (p2 ++ (volKeyQ ++ (v ++ ('"' ::
    (qosIns ++ (p3 ++ (cgroupCgroupfs ++ (p4 ++ enfTail)))))))))

/-- C1: For every valid Linux kubelet JSON configuration containing the
certificate-authority path field, the cgroupDriver field with value systemd,
and the volume-stats-aggregation-period field (any byte string of shape
`kubeConfShape`, the pattern-position hypotheses pinning each anchor's first
occurrence), the Kubelet Config Rewriter returns exactly the input bytes with
precisely four edits: the certificate-authority path rewritten to
`<installDir>\kubelet-ca.crt`, `cgroupDriver` changed from systemd to
cgroupfs, `cgroupsPerQOS: false` inserted immediately after the
volume-stats-aggregation-period field, and `enforceNodeAllocatable: []`
appended at the end of the top-level object; the surrounding bytes
`p1, p2, p3, p4, v` are preserved byte-for-byte in their original order. -/
theorem c1_prepKubeletConf_four_edits (d p1 p2 p3 p4 v : Chars)
    (hCA : findSub (kubeConfShape p1 p2 p3 p4 v caPosix cgroupSystemd) caPosix
      = some p1.length)
    (hCG : findSub (kubeConfShape p1 p2 p3 p4 v (winCAPath d) cgroupSystemd) cgroupSystemd
      = some (p1 ++ (winCAPath d ++ (p2 ++ (volKeyQ ++ (v ++ ('"' :: p3)))))).length)
    (hVK : findSub (kubeConfShape p1 p2 p3 p4 v (winCAPath d) cgroupCgroupfs) volKeyQ
      = some (p1 ++ (winCAPath d ++ p2)).length)
    (hv : '"' ∉ v) :
    prepKubeletConfForWindows d (kubeConfShape p1 p2 p3 p4 v caPosix cgroupSystemd)
      = some (kubeConfResult d p1 p2 p3 p4 v) := by
  have e1 : replaceFirst (kubeConfShape p1 p2 p3 p4 v caPosix cgroupSystemd) caPosix
      (winCAPath d)
      = some (kubeConfShape p1 p2 p3 p4 v (winCAPath d) cgroupSystemd) := by
    have h0 := replaceFirst_eq (kubeConfShape p1 p2 p3 p4 v caPosix cgroupSystemd) p1
      (p2 ++ (volKeyQ ++ (v ++ ('"' :: (p3 ++ (cgroupSystemd ++ (p4 ++ ['\x7d'])))))))
      caPosix (winCAPath d) (by simp [kubeConfShape, List.append_assoc]) hCA
    rw [h0]
    simp [kubeConfShape, List.append_assoc]
  have e2 : replaceFirst (kubeConfShape p1 p2 p3 p4 v (winCAPath d) cgroupSystemd)
      cgroupSystemd cgroupCgroupfs
      = some (kubeConfShape p1 p2 p3 p4 v (winCAPath d) cgroupCgroupfs) := by
    have h0 := replaceFirst_eq (kubeConfShape p1 p2 p3 p4 v (winCAPath d) cgroupSystemd)
      (p1 ++ (winCAPath d ++ (p2 ++ (volKeyQ ++ (v ++ ('"' :: p3)))))) (p4 ++ ['\x7d'])
      cgroupSystemd cgroupCgroupfs (by simp [kubeConfShape, List.append_assoc]) hCG
    rw [h0]
    simp [kubeConfShape, List.append_assoc]
  have h3 := insertQOS_eq (kubeConfShape p1 p2 p3 p4 v (winCAPath d) cgroupCgroupfs)
    (p1 ++ (winCAPath d ++ p2)) v (p3 ++ (cgroupCgroupfs ++ (p4 ++ ['\x7d'])))
    (by simp [kubeConfShape, List.append_assoc]) hVK hv
  simp only [prepKubeletConfForWindows, Option.bind_eq_bind]
  rw [e1]
  simp only [Option.some_bind]
  rw [e2]
  simp only [Option.some_bind]
  rw [h3]
  simp only [Option.some_bind]
  have hE : ((p1 ++ (winCAPath d ++ p2) ++ volKeyQ) ++ (v ++ ['"'])) ++ qosIns
        ++ (p3 ++ (cgroupCgroupfs ++ (p4 ++ ['\x7d'])))
      = (((p1 ++ (winCAPath d ++ p2) ++ volKeyQ) ++ (v ++ ['"'])) ++ qosIns
        ++ (p3 ++ (cgroupCgroupfs ++ p4))) ++ ['\x7d'] := by
    simp [List.append_assoc]
  rw [hE]
  rw [List.getLast?_concat, List.dropLast_concat]
  simp [kubeConfResult, List.append_assoc]

/-- Witness instantiation pieces for the rewrite theorem: a small kubelet
configuration containing the three anchor fields. -/
def c1wd : Chars := str "C:\\k"

def c1wp1 : Chars := str "\x7b\"a\":1,\"clientCAFile\":\""

def c1wp2 : Chars := str "\","

def c1wp3 : Chars := str ","

def c1wp4 : Chars := str ",\"z\":2"

def c1wv : Chars := str "0s"

/-- Witness for C1: the pattern-position hypotheses hold on a concrete kubelet
configuration and the rewriter produces exactly the four-edit result there. -/
theorem c1_witness :
    (findSub (kubeConfShape c1wp1 c1wp2 c1wp3 c1wp4 c1wv caPosix cgroupSystemd) caPosix
        = some c1wp1.length
      ∧ findSub (kubeConfShape c1wp1 c1wp2 c1wp3 c1wp4 c1wv (winCAPath c1wd) cgroupSystemd)
          cgroupSystemd
        = some (c1wp1 ++ (winCAPath c1wd ++ (c1wp2 ++ (volKeyQ ++ (c1wv ++ ('"' :: c1wp3)))))).length
      ∧ findSub (kubeConfShape c1wp1 c1wp2 c1wp3 c1wp4 c1wv (winCAPath c1wd) cgroupCgroupfs)
          volKeyQ
        = some (c1wp1 ++ (winCAPath c1wd ++ c1wp2)).length
      ∧ '"' ∉ c1wv)
    ∧ prepKubeletConfForWindows c1wd (kubeConfShape c1wp1 c1wp2 c1wp3 c1wp4 c1wv caPosix cgroupSystemd)
      = some (kubeConfResult c1wd c1wp1 c1wp2 c1wp3 c1wp4 c1wv) :=
  ⟨⟨by decide, by decide, by decide, by decide⟩,
    c1_prepKubeletConf_four_edits c1wd c1wp1 c1wp2 c1wp3 c1wp4 c1wv
      (by decide) (by decide) (by decide) (by decide)⟩

/-- C9: For every valid data URI `u` (one on which the decoder succeeds with
bytes `bs`), the File Translator with no transform returns exactly the decoded
bytes, with a transform `f` it returns exactly `f` applied to the decoded
bytes, and with the identity transform it coincides with the decoder. -/
theorem c9_translateFile_decode (u bs : Chars) (f : Chars → Option Chars)
    (h : dataURIDecode u = some bs) :
    translateFile u none = some bs
      ∧ translateFile u (some f) = f bs
      ∧ translateFile u (some some) = dataURIDecode u := by
  unfold translateFile
  rw [h]
  simp [Option.some_bind]

/-- Witness data URI for the translator theorem. -/
def c9u : Chars := str "data:,ab%20c%0Ad"

/-- Its decoded payload. -/
def c9bs : Chars := str "ab c\nd"

/-- A concrete transform. -/
def c9f : Chars → Option Chars := fun l => some (l ++ str "suffix")

/-- Witness for C9: the decoder succeeds on a concrete data URI and the
translator contract holds there. -/
theorem c9_witness :
    dataURIDecode c9u = some c9bs
      ∧ (translateFile c9u none = some c9bs
        ∧ translateFile c9u (some c9f) = c9f c9bs
        ∧ translateFile c9u (some some) = dataURIDecode c9u) :=
  ⟨by decide, c9_translateFile_decode c9u c9bs c9f (by decide)⟩

/-! ### Lemmas about space tokenisation -/

theorem splitSp_ne_nil : ∀ l : Chars, splitSp l ≠ [] := by
  intro l
  induction l with
  | nil => simp [splitSp]
  | cons c rest ih =>
    rw [splitSp]
    cases h : splitSp rest with
    | nil => simp
    | cons hd tl =>
      by_cases hc : c = ' ' <;> simp [hc]

theorem mem_splitSp_no_space : ∀ (l t : Chars), t ∈ splitSp l → ' ' ∉ t := by
  intro l
  induction l with
  | nil =>
    intro t ht
    simp [splitSp] at ht
    subst ht
    simp
  | cons c rest ih =>
    intro t ht
    cases h : splitSp rest with
    | nil => exact absurd h (splitSp_ne_nil rest)
    | cons hd tl =>
      rw [splitSp, h] at ht
      dsimp only at ht
      by_cases hc : c = ' '
      · rw [if_pos hc] at ht
        rcases List.mem_cons.mp ht with h1 | h2
        · subst h1
          simp
        · exact ih t (h ▸ h2)
      · rw [if_neg hc] at ht
        rcases List.mem_cons.mp ht with h1 | h2
        · subst h1
          intro hsp
          rcases List.mem_cons.mp hsp with he | hm
          · exact hc he.symm
          · exact ih hd (h ▸ List.mem_cons_self hd tl) hm
        · exact ih t (h ▸ List.mem_cons_of_mem hd h2)

theorem splitSp_space_free (a : Chars) (ha : ' ' ∉ a) : splitSp a = [a] := by
  induction a with
  | nil => simp [splitSp]
  | cons c rest ih =>
    have hc : ¬(c = ' ') := fun hc => ha (hc ▸ List.mem_cons_self c rest)
    have hr : ' ' ∉ rest := fun hm => ha (List.mem_cons_of_mem c hm)
    rw [splitSp, ih hr]
    simp [hc]

theorem splitSp_append_space (a w : Chars) (ha : ' ' ∉ a) :
    splitSp (a ++ ' ' :: w) = a :: splitSp w := by
  induction a with
  | nil =>
    cases h : splitSp w with
    | nil => exact absurd h (splitSp_ne_nil w)
    | cons hd tl =>
      rw [List.nil_append, splitSp, h]
      simp
  | cons c rest ih =>
    have hc : ¬(c = ' ') := fun hc => ha (hc ▸ List.mem_cons_self c rest)
    have hr : ' ' ∉ rest := fun hm => ha (List.mem_cons_of_mem c hm)
    rw [List.cons_append, splitSp, ih hr]
    simp [hc]

theorem splitSp_joinSp : ∀ ls : List Chars, ls ≠ [] → (∀ t ∈ ls, ' ' ∉ t) →
    splitSp (joinSp ls) = ls := by
  intro ls
  induction ls with
  | nil => intro h; exact absurd rfl h
  | cons t ts ih =>
    intro _ hfree
    cases ts with
    | nil =>
      rw [joinSp]
      exact splitSp_space_free t (hfree t (List.mem_cons_self t []))
    | cons u ts' =>
      rw [joinSp]
      rw [splitSp_append_space t (joinSp (u :: ts')) (hfree t (List.mem_cons_self t (u :: ts')))]
      rw [ih (by simp) (fun x hx => hfree x (List.mem_cons_of_mem t hx))]

theorem begins_append_left : ∀ (p u w : Chars), p.length ≤ u.length →
    begins (u ++ w) p = begins u p
  | [], u, w, _ => by cases u <;> simp [begins]
  | _ :: _, [], _, h => by simp at h
  | b :: p', a :: u', w, h => by
    rw [List.cons_append, begins, begins]
    by_cases hab : a = b
    · rw [if_pos hab, if_pos hab,
        begins_append_left p' u' w (by simpa using h)]
    · rw [if_neg hab, if_neg hab]

theorem begins_binDirTok (bin : Chars) :
    begins (binDirTok bin) (str "--cni-bin-dir") = true := by
  rw [binDirTok, begins_append_left (str "--cni-bin-dir") (str "--cni-bin-dir=") bin
    (by decide)]
  decide

theorem begins_binDirTok_conf (bin : Chars) :
    begins (binDirTok bin) (str "--cni-conf-dir") = false := by
  rw [binDirTok, begins_append_left (str "--cni-conf-dir") (str "--cni-bin-dir=") bin
    (by decide)]
  decide

theorem begins_confDirTok (conf : Chars) :
    begins (confDirTok conf) (str "--cni-conf-dir") = true := by
  rw [confDirTok, begins_append_left (str "--cni-conf-dir") (str "--cni-conf-dir=") conf
    (by decide)]
  decide

theorem begins_confDirTok_bin (conf : Chars) :
    begins (confDirTok conf) (str "--cni-bin-dir") = false := by
  rw [confDirTok, begins_append_left (str "--cni-bin-dir") (str "--cni-conf-dir=") conf
    (by decide)]
  decide

theorem keepTok_resolv : keepTok resolvTok = false := by decide

theorem keepTok_netPlugin : keepTok netPluginTok = false := by decide

theorem keepTok_binDir (bin : Chars) : keepTok (binDirTok bin) = false := by
  rw [keepTok]
  have h : cniFlagStems.any (fun p => begins (binDirTok bin) p) = true := by
    rw [List.any_eq_true]
    exact ⟨str "--cni-bin-dir", by rw [cniFlagStems]; simp, begins_binDirTok bin⟩
  rw [h]
  rfl

theorem keepTok_confDir (conf : Chars) : keepTok (confDirTok conf) = false := by
  rw [keepTok]
  have h : cniFlagStems.any (fun p => begins (confDirTok conf) p) = true := by
    rw [List.any_eq_true]
    exact ⟨str "--cni-conf-dir", by rw [cniFlagStems]; simp, begins_confDirTok conf⟩
  rw [h]
  rfl

theorem resolv_ne_binDir (bin : Chars) : resolvTok ≠ binDirTok bin := by
  intro h
  have h1 := begins_binDirTok bin
  rw [← h] at h1
  exact absurd h1 (by decide)

theorem resolv_ne_confDir (conf : Chars) : resolvTok ≠ confDirTok conf := by
  intro h
  have h1 := begins_confDirTok conf
  rw [← h] at h1
  exact absurd h1 (by decide)

theorem netPlugin_ne_binDir (bin : Chars) : netPluginTok ≠ binDirTok bin := by
  intro h
  have h1 := begins_binDirTok bin
  rw [← h] at h1
  exact absurd h1 (by decide)

theorem netPlugin_ne_confDir (conf : Chars) : netPluginTok ≠ confDirTok conf := by
  intro h
  have h1 := begins_confDirTok conf
  rw [← h] at h1
  exact absurd h1 (by decide)

theorem binDir_ne_confDir (bin conf : Chars) : binDirTok bin ≠ confDirTok conf := by
  intro h
  have h1 := begins_binDirTok bin
  rw [h] at h1
  rw [begins_confDirTok_bin conf] at h1
  exact absurd h1 (by decide)

theorem canon_space_free (bin conf : Chars) (hb : ' ' ∉ bin) (hc : ' ' ∉ conf) :
    ∀ t ∈ canonToks bin conf, ' ' ∉ t := by
  intro t ht
  rw [canonToks] at ht
  simp only [List.mem_cons, List.not_mem_nil, or_false] at ht
  rcases ht with h | h | h | h
  · subst h; decide
  · subst h; decide
  · subst h
    intro hm
    rcases List.mem_append.mp hm with h1 | h1
    · exact absurd h1 (by decide)
    · exact hb h1
  · subst h
    intro hm
    rcases List.mem_append.mp hm with h1 | h1
    · exact absurd h1 (by decide)
    · exact hc h1

theorem splitSp_update (bin conf cmd : Chars) (hb : ' ' ∉ bin) (hc : ' ' ∉ conf) :
    splitSp (updateKubeletArgsForCNI bin conf cmd)
      = (splitSp cmd).filter keepTok ++ canonToks bin conf := by
  rw [updateKubeletArgsForCNI]
  apply splitSp_joinSp
  · simp [canonToks]
  · intro t ht
    rcases List.mem_append.mp ht with h | h
    · exact mem_splitSp_no_space cmd t (List.mem_of_mem_filter h)
    · exact canon_space_free bin conf hb hc t h

theorem filter_keep_canon (bin conf : Chars) :
    (canonToks bin conf).filter keepTok = [] := by
  rw [canonToks]
  simp [List.filter, keepTok_resolv, keepTok_netPlugin, keepTok_binDir, keepTok_confDir]

/-- C2: for every kubelet start command line `cmd`, reconciling twice yields
the same command line as reconciling once (idempotence), and the reconciled
command line contains exactly one occurrence of each canonical CNI token —
`--resolv-conf=""`, `--network-plugin=cni`, `--cni-bin-dir=<cniInstallDir>`
and `--cni-conf-dir=<cniConfigInstallPath>` — regardless of what values those
flags held in `cmd` beforehand (existing occurrences are stripped before the
canonical values are appended). The installation directories are assumed free
of spaces, the token separator of the command line. -/
theorem c2_updateKubeletArgs_idempotent (bin conf cmd : Chars)
    (hb : ' ' ∉ bin) (hc : ' ' ∉ conf) :
    updateKubeletArgsForCNI bin conf (updateKubeletArgsForCNI bin conf cmd)
      = updateKubeletArgsForCNI bin conf cmd
    ∧ (splitSp (updateKubeletArgsForCNI bin conf cmd)).count resolvTok = 1
    ∧ (splitSp (updateKubeletArgsForCNI bin conf cmd)).count netPluginTok = 1
    ∧ (splitSp (updateKubeletArgsForCNI bin conf cmd)).count (binDirTok bin) = 1
    ∧ (splitSp (updateKubeletArgsForCNI bin conf cmd)).count (confDirTok conf) = 1 := by
  have hsplit := splitSp_update bin conf cmd hb hc
  have hKfilter : ((splitSp cmd).filter keepTok).filter keepTok
      = (splitSp cmd).filter keepTok := by
    rw [List.filter_filter]
    simp
  have hKmem : ∀ t ∈ (splitSp cmd).filter keepTok, keepTok t = true := by
    intro t ht
    exact List.of_mem_filter ht
  refine ⟨?_, ?_, ?_, ?_, ?_⟩
  · conv_lhs => rw [updateKubeletArgsForCNI, hsplit]
    rw [List.filter_append, hKfilter, filter_keep_canon, List.append_nil]
    rfl
  · rw [hsplit, List.count_append]
    have h0 : ((splitSp cmd).filter keepTok).count resolvTok = 0 := by
      rw [List.count_eq_zero]
      intro hmem
      exact absurd (hKmem resolvTok hmem) (by simp [keepTok_resolv])
    rw [h0]
    simp [canonToks, List.count_cons, resolv_ne_binDir bin, resolv_ne_confDir conf]
    decide
  · rw [hsplit, List.count_append]
    have h0 : ((splitSp cmd).filter keepTok).count netPluginTok = 0 := by
      rw [List.count_eq_zero]
      intro hmem
      exact absurd (hKmem netPluginTok hmem) (by simp [keepTok_netPlugin])
    rw [h0]
    simp [canonToks, List.count_cons, netPlugin_ne_binDir bin, netPlugin_ne_confDir conf]
    decide
  · rw [hsplit, List.count_append]
    have h0 : ((splitSp cmd).filter keepTok).count (binDirTok bin) = 0 := by
      rw [List.count_eq_zero]
      intro hmem
      exact absurd (hKmem (binDirTok bin) hmem) (by simp [keepTok_binDir])
    rw [h0]
    simp [canonToks, List.count_cons, (resolv_ne_binDir bin).symm,
      (netPlugin_ne_binDir bin).symm, binDir_ne_confDir bin conf]
  · rw [hsplit, List.count_append]
    have h0 : ((splitSp cmd).filter keepTok).count (confDirTok conf) = 0 := by
      rw [List.count_eq_zero]
      intro hmem
      exact absurd (hKmem (confDirTok conf) hmem) (by simp [keepTok_confDir])
    rw [h0]
    simp [canonToks, List.count_cons, (resolv_ne_confDir conf).symm,
      (netPlugin_ne_confDir conf).symm, (binDir_ne_confDir bin conf).symm]

/-- Witness CNI binary install directory. -/
def c2bin : Chars := str "C:\\k\\cni"

/-- Witness CNI config install directory. -/
def c2conf : Chars := str "C:\\k\\cni\\config"

/-- Witness kubelet start command line, as exercised by the repository's
reconciliation test. -/
def c2cmd : Chars :=
  str "c:\\k\\kubelet.exe --config=c:\\k\\kubelet.conf --kubeconfig=c:\\k\\kubeconfig --cert-dir=c:/var/lib/kubelet/pki/ --windows-service --logtostderr=false --register-with-taints=os=Windows:NoSchedule --cloud-provider=aws --v=3 --resolv-conf=d:\\k\\etc\\resolv.conf --network-plugin=xyz --cni-bin-dir=d:\\k\\cni --cni-conf-dir=d:\\k\\cni\\config\\cni.conf"

/-- Witness for C2: the space-free-directory hypotheses hold for the concrete
install layout, and the idempotence and exactly-one-occurrence conclusions
follow there. -/
theorem c2_witness :
    (' ' ∉ c2bin ∧ ' ' ∉ c2conf)
    ∧ (updateKubeletArgsForCNI c2bin c2conf (updateKubeletArgsForCNI c2bin c2conf c2cmd)
        = updateKubeletArgsForCNI c2bin c2conf c2cmd
      ∧ (splitSp (updateKubeletArgsForCNI c2bin c2conf c2cmd)).count resolvTok = 1
      ∧ (splitSp (updateKubeletArgsForCNI c2bin c2conf c2cmd)).count netPluginTok = 1
      ∧ (splitSp (updateKubeletArgsForCNI c2bin c2conf c2cmd)).count (binDirTok c2bin) = 1
      ∧ (splitSp (updateKubeletArgsForCNI c2bin c2conf c2cmd)).count (confDirTok c2conf) = 1) :=
  ⟨⟨by decide, by decide⟩, c2_updateKubeletArgs_idempotent c2bin c2conf c2cmd
    (by decide) (by decide)⟩

/-! ### Lemmas about the ignition walker -/

theorem alookup_filter_ne {α : Type} (l : List (Chars × α)) (k : Chars) :
    alookup (l.filter (fun kv => decide (kv.1 ≠ k))) k = none := by
  induction l with
  | nil => rfl
  | cons kv rest ih =>
    by_cases h : kv.1 = k
    · simp only [List.filter, h]
      simpa using ih
    · have hd : (decide (kv.1 ≠ k)) = true := decide_eq_true h
      simp only [List.filter, hd]
      rw [alookup, if_neg h]
      exact ih

theorem processFiles_skip (d : Chars) (ccPath : Option Chars) :
    ∀ (l : List FileEntry) (acc : ParseResult),
      (∀ f ∈ l, ccPath ≠ some f.path) →
      processFiles d ccPath [] l acc = .ok acc := by
  intro l
  induction l with
  | nil => intro acc _; rfl
  | cons f rest ih =>
    intro acc h
    rw [processFiles, if_neg (h f (List.mem_cons_self f rest))]
    exact ih acc (fun g hg => h g (List.mem_cons_of_mem f hg))

/-- C5: for every ignition document whose kubelet unit command line contains a
`--cloud-config=<path>` token whose path has an empty base name, the ignition
walker fails with `InvalidArgumentError` rather than succeeding, for any
caller-supplied rules table. -/
theorem c5_invalid_cloud_config (d : Chars) (doc : IgnitionDoc)
    (rules : List (Chars × FileTranslation)) (p : Chars)
    (hmem : (ccKeyChars, p) ∈ kubeletUnitArgs doc) (hbase : baseName p = []) :
    parseIgnitionFileContents d doc rules = .error .invalidArgument := by
  have hvfalse : (kubeletUnitArgs doc).all validArg = false := by
    cases hall : (kubeletUnitArgs doc).all validArg
    · rfl
    · have hv := List.all_eq_true.mp hall _ hmem
      rw [validArg] at hv
      simp [hbase] at hv
  rw [parseIgnitionFileContents]
  simp [hvfalse]

/-- Witness ignition document for the invalid `--cloud-config=/` argument. -/
def c5doc : IgnitionDoc := ⟨[], [⟨kubeletUnitName, str "--cloud-config=/ --v=3"⟩]⟩

/-- Witness for C5: the kubelet unit of a concrete document declares
`--cloud-config=/`, and the walker fails with the invalid-argument error. -/
theorem c5_witness :
    ((ccKeyChars, str "/") ∈ kubeletUnitArgs c5doc ∧ baseName (str "/") = [])
    ∧ parseIgnitionFileContents (str "C:/k") c5doc [] = .error .invalidArgument :=
  ⟨⟨by decide, by decide⟩,
    c5_invalid_cloud_config (str "C:/k") c5doc [] (str "/") (by decide) (by decide)⟩

/-- C4 (amended): for every ignition document whose kubelet unit arguments all
validate and that contains no file entry matching the unit's declared
cloud-config source path, the walker (with an empty rules table) succeeds
without writing any file — in particular without creating
`<installDir>/cloud.conf` — and without adding a `cloud-config` key to the
kubelet argument map. -/
theorem c4_no_cloud_conf_frame (d : Chars) (doc : IgnitionDoc)
    (hval : (kubeletUnitArgs doc).all validArg = true)
    (hnomatch : ∀ f ∈ doc.files, alookup (kubeletUnitArgs doc) ccKeyChars ≠ some f.path) :
    parseIgnitionFileContents d doc [] = .ok ⟨[], initialArgs (kubeletUnitArgs doc)⟩
    ∧ alookup (initialArgs (kubeletUnitArgs doc)) ccKeyChars = none := by
  constructor
  · rw [parseIgnitionFileContents]
    simp only [hval, if_true]
    exact processFiles_skip d _ doc.files ⟨[], initialArgs (kubeletUnitArgs doc)⟩ hnomatch
  · exact alookup_filter_ne (kubeletUnitArgs doc) ccKeyChars

/-- A document with no cloud.conf file entry (its file list is empty) whose
kubelet unit nevertheless declares the invalid `--cloud-config=/`. -/
def c4doc : IgnitionDoc := ⟨[], [⟨kubeletUnitName, str "--cloud-config=/ --v=3"⟩]⟩

/-- Counterexample for C4 as frozen: this document contains no cloud.conf
file entry, yet the walker does not succeed on it — it fails with the
invalid-argument error, contradicting the claim that parsing succeeds for
every such document. -/
theorem c4_counterexample :
    c4doc.files = []
    ∧ parseIgnitionFileContents (str "C:/k") c4doc [] = .error .invalidArgument := by
  constructor
  · rfl
  · decide

/-- Witness document for the amended C4: one unmatched file entry and a
kubelet unit with valid flags and no cloud-config flag. -/
def c4wdoc : IgnitionDoc :=
  ⟨[⟨str "/etc/kubernetes/other.crt", str "data:,abc"⟩],
    [⟨kubeletUnitName, str "--kubeconfig=/var/lib/kubelet/kubeconfig --v=3"⟩]⟩

/-- Witness for the amended C4: the hypotheses hold on a concrete document and
the walker leaves the file system and the cloud-config argument untouched. -/
theorem c4_witness :
    ((kubeletUnitArgs c4wdoc).all validArg = true
      ∧ (∀ f ∈ c4wdoc.files, alookup (kubeletUnitArgs c4wdoc) ccKeyChars ≠ some f.path))
    ∧ (parseIgnitionFileContents (str "C:/k") c4wdoc []
        = .ok ⟨[], initialArgs (kubeletUnitArgs c4wdoc)⟩
      ∧ alookup (initialArgs (kubeletUnitArgs c4wdoc)) ccKeyChars = none) :=
  ⟨⟨by decide, by decide⟩,
    c4_no_cloud_conf_frame (str "C:/k") c4wdoc (by decide) (by decide)⟩

/-- The extraction invariant: the result records the cloud-config kubelet
argument and a written `<installDir>/cloud.conf` file. -/
def ccExtracted (d : Chars) (r : ParseResult) : Prop :=
  alookup r.kubeletArgs ccKeyChars = some (ccDest d)
    ∧ ∃ c, (ccDest d, c) ∈ r.writtenFiles

theorem processFiles_cc_extract (d p : Chars) :
    ∀ (l : List FileEntry) (acc : ParseResult),
      (∀ f ∈ l, f.path = p → (cloudConfTranslate f.source).isSome = true) →
      ∃ r, processFiles d (some p) [] l acc = .ok r
        ∧ (ccExtracted d acc → ccExtracted d r)
        ∧ ((∃ f ∈ l, f.path = p) → ccExtracted d r) := by
  intro l
  induction l with
  | nil =>
    intro acc _
    exact ⟨acc, rfl, fun h => h, by simp⟩
  | cons f rest ih =>
    intro acc hok
    by_cases hfp : f.path = p
    · obtain ⟨contents, hct⟩ := Option.isSome_iff_exists.mp
        (hok f (List.mem_cons_self f rest) hfp)
      obtain ⟨r, hr, hpres, _⟩ := ih
        ⟨(ccDest d, contents) :: acc.writtenFiles, (ccKeyChars, ccDest d) :: acc.kubeletArgs⟩
        (fun g hg hgp => hok g (List.mem_cons_of_mem f hg) hgp)
      have hgood : ccExtracted d
          ⟨(ccDest d, contents) :: acc.writtenFiles,
            (ccKeyChars, ccDest d) :: acc.kubeletArgs⟩ := by
        constructor
        · rw [alookup, if_pos rfl]
        · exact ⟨contents, List.mem_cons_self _ _⟩
      refine ⟨r, ?_, fun _ => hpres hgood, fun _ => hpres hgood⟩
      rw [processFiles, if_pos (by rw [hfp]), hct]
      exact hr
    · obtain ⟨r, hr, hpres, hex⟩ := ih acc
        (fun g hg hgp => hok g (List.mem_cons_of_mem f hg) hgp)
      refine ⟨r, ?_, hpres, ?_⟩
      · rw [processFiles, if_neg (fun he => hfp (Option.some.inj he).symm)]
        exact hr
      · rintro ⟨g, hg, hgp⟩
        rcases List.mem_cons.mp hg with h1 | h1
        · exact absurd (h1 ▸ hgp) hfp
        · exact hex ⟨g, h1, hgp⟩

/-- C10: for every ignition document whose kubelet unit declares a valid
cloud-config source path and that embeds a file at that path whose payload the
extractor can translate, the walker invoked with a completely empty
translation-rules table still performs the cloud-config extraction: it
succeeds, records `KubeletArgs["cloud-config"] = <installDir>/cloud.conf`, and
writes `<installDir>/cloud.conf` — the cloud-config handling is built into the
walker and needs no entry in the rules table. -/
theorem c10_builtin_cloud_conf (d : Chars) (doc : IgnitionDoc) (p : Chars)
    (hval : (kubeletUnitArgs doc).all validArg = true)
    (hcc : alookup (kubeletUnitArgs doc) ccKeyChars = some p)
    (hex : ∃ f ∈ doc.files, f.path = p)
    (hok : ∀ f ∈ doc.files, f.path = p → (cloudConfTranslate f.source).isSome = true) :
    ∃ r, parseIgnitionFileContents d doc [] = .ok r
      ∧ alookup r.kubeletArgs ccKeyChars = some (ccDest d)
      ∧ ∃ c, (ccDest d, c) ∈ r.writtenFiles := by
  obtain ⟨r, hr, _, hgoal⟩ :=
    processFiles_cc_extract d p doc.files ⟨[], initialArgs (kubeletUnitArgs doc)⟩ hok
  refine ⟨r, ?_, (hgoal hex).1, (hgoal hex).2⟩
  rw [parseIgnitionFileContents]
  simp only [hval, if_true]
  rw [hcc]
  exact hr

/-- Witness ignition document for built-in extraction: a cloud.conf file entry
plus a kubelet unit declaring the matching cloud-config flag. -/
def c10doc : IgnitionDoc :=
  ⟨[⟨str "/etc/kubernetes/cloud.conf", str "data:,%7B%0A%09%22a%22%3A%201%0A%7D"⟩],
    [⟨kubeletUnitName, str "--cloud-config=/etc/kubernetes/cloud.conf --v=3"⟩]⟩

/-- Witness for C10: the hypotheses hold on a concrete document, and the
walker with an empty rules table performs the extraction there. -/
theorem c10_witness :
    ((kubeletUnitArgs c10doc).all validArg = true
      ∧ alookup (kubeletUnitArgs c10doc) ccKeyChars = some (str "/etc/kubernetes/cloud.conf")
      ∧ (∃ f ∈ c10doc.files, f.path = str "/etc/kubernetes/cloud.conf")
      ∧ (∀ f ∈ c10doc.files, f.path = str "/etc/kubernetes/cloud.conf" →
          (cloudConfTranslate f.source).isSome = true))
    ∧ ∃ r, parseIgnitionFileContents (str "C:/k") c10doc [] = .ok r
      ∧ alookup r.kubeletArgs ccKeyChars = some (ccDest (str "C:/k"))
      ∧ ∃ c, (ccDest (str "C:/k"), c) ∈ r.writtenFiles :=
  ⟨⟨by decide, by decide, ⟨⟨str "/etc/kubernetes/cloud.conf",
      str "data:,%7B%0A%09%22a%22%3A%201%0A%7D"⟩, by decide, rfl⟩, by decide⟩,
    c10_builtin_cloud_conf (str "C:/k") c10doc (str "/etc/kubernetes/cloud.conf")
      (by decide) (by decide)
      ⟨⟨str "/etc/kubernetes/cloud.conf",
        str "data:,%7B%0A%09%22a%22%3A%201%0A%7D"⟩, by decide, rfl⟩
      (by decide)⟩

/-! ### Lemmas about the CNI installer -/

theorem begins_self_append : ∀ v t : Chars, begins (v ++ t) v = true := by
  intro v
  induction v with
  | nil => intro t; cases t <;> simp [begins]
  | cons a v ih =>
    intro t
    rw [List.cons_append, begins, if_pos rfl]
    exact ih t

theorem containsSub_self_append (n r : Chars) : containsSub (n ++ r) n = true := by
  rw [containsSub, findSub]
  rcases hnr : n ++ r with _ | ⟨c, rest⟩
  · have hn0 : n = [] := (List.append_eq_nil.mp hnr).1
    simp [findSubGo, hn0]
  · have hb : begins (c :: rest) n = true := by
      rw [← hnr]
      exact begins_self_append n r
    simp [findSubGo, hb]

/-- C6: whenever the kubelet Windows service does not exist in the service
table, ConfigureCNI fails with the service-precondition error whose message
contains `kubelet service is not present`; the reconciliation returns before
touching any state, so the engine never creates the service itself. -/
theorem c6_configure_cni_requires_kubelet (b : winNodeBootstrapper) (st : CNIState)
    (h : alookup st.services kubeletSvcName = none) :
    ConfigureCNI b st
      = .error ⟨.servicePreconditionErr, str "kubelet service is not present"⟩
    ∧ errMentions (ConfigureCNI b st) (str "kubelet service is not present") = true := by
  have he : ConfigureCNI b st
      = .error ⟨.servicePreconditionErr, str "kubelet service is not present"⟩ := by
    rw [ConfigureCNI, h]
  refine ⟨he, ?_⟩
  rw [he, errMentions]
  decide

/-- Witness for C6: a concrete state with an empty service table makes
ConfigureCNI fail with the kubelet-service precondition error. -/
theorem c6_witness :
    alookup (CNIState.mk ⟨[]⟩ []).services kubeletSvcName = none
    ∧ (ConfigureCNI (mkBootstrapper (str "C:/k") (str "C:/cni") (str "C:/cni/cni.conf"))
          ⟨⟨[]⟩, []⟩
        = .error ⟨.servicePreconditionErr, str "kubelet service is not present"⟩
      ∧ errMentions
          (ConfigureCNI (mkBootstrapper (str "C:/k") (str "C:/cni") (str "C:/cni/cni.conf"))
            ⟨⟨[]⟩, []⟩)
          (str "kubelet service is not present") = true) :=
  ⟨rfl, c6_configure_cni_requires_kubelet
    (mkBootstrapper (str "C:/k") (str "C:/cni") (str "C:/cni/cni.conf")) ⟨⟨[]⟩, []⟩ rfl⟩

/-- C7: checkCNIInputs fails mentioning `error accessing install directory`
whenever the install directory does not exist — regardless of the other two
inputs, so this failure is reported first; with the install directory present
it fails mentioning `error accessing CNI path` when the CNI source path is
absent and `CNI path cannot be a file` when it is a regular file — regardless
of the CNI config input, so these are reported before any config failure; and
with both earlier checks passing it fails mentioning
`CNI config cannot be a directory` when the CNI config source is a
directory. -/
theorem c7_checkCNIInputs_errors (b : winNodeBootstrapper) (fs : FileSys) :
    (fs.stat b.installDir = none →
      errMentions (checkCNIInputs b fs) (str "error accessing install directory") = true)
    ∧ (∀ x, fs.stat b.installDir = some x → fs.stat b.cniPath = none →
      errMentions (checkCNIInputs b fs) (str "error accessing CNI path") = true)
    ∧ (∀ x c, fs.stat b.installDir = some x → fs.stat b.cniPath = some (.file c) →
      errMentions (checkCNIInputs b fs) (str "CNI path cannot be a file") = true)
    ∧ (∀ x ns, fs.stat b.installDir = some x → fs.stat b.cniPath = some (.dir ns) →
      ∀ ns', fs.stat b.cniConfig = some (.dir ns') →
      errMentions (checkCNIInputs b fs) (str "CNI config cannot be a directory") = true) := by
  refine ⟨?_, ?_, ?_, ?_⟩
  · intro h
    rw [checkCNIInputs, h, errMentions]
    have : str "error accessing install directory " ++ b.installDir
        = str "error accessing install directory" ++ (str " " ++ b.installDir) := by
      simp [str]
    rw [this]
    exact containsSub_self_append _ _
  · intro x hx hp
    rw [checkCNIInputs, hx, hp, errMentions]
    have : str "error accessing CNI path " ++ b.cniPath
        = str "error accessing CNI path" ++ (str " " ++ b.cniPath) := by
      simp [str]
    rw [this]
    exact containsSub_self_append _ _
  · intro x c hx hp
    rw [checkCNIInputs, hx, hp, errMentions]
    have : str "CNI path cannot be a file " ++ b.cniPath
        = str "CNI path cannot be a file" ++ (str " " ++ b.cniPath) := by
      simp [str]
    rw [this]
    exact containsSub_self_append _ _
  · intro x ns hx hp ns' hcfg
    rw [checkCNIInputs, hx, hp, hcfg, errMentions]
    have : str "CNI config cannot be a directory " ++ b.cniConfig
        = str "CNI config cannot be a directory" ++ (str " " ++ b.cniConfig) := by
      simp [str]
    rw [this]
    exact containsSub_self_append _ _

theorem stat_write (fs : FileSys) (p : Chars) (n : FSNode) (q : Chars) :
    (fs.write p n).stat q = if p = q then some n else fs.stat q := rfl

theorem isFileNode_write_preserve (fs : FileSys) (p : Chars) (c : Chars) (q : Chars)
    (h : isFileNode (fs.stat q) = true) :
    isFileNode ((fs.write p (.file c)).stat q) = true := by
  rw [stat_write]
  by_cases hpq : p = q
  · simp [hpq, isFileNode]
  · simp [hpq, h]

theorem copyFilesFrom_ok (src dst : Chars) :
    ∀ (l : List Chars) (fs fs' : FileSys),
      copyFilesFrom src dst l fs = .ok fs' →
      (∀ q, isFileNode (fs.stat q) = true → isFileNode (fs'.stat q) = true)
        ∧ ∀ n ∈ l, isFileNode (fs'.stat (joinPath dst n)) = true := by
  intro l
  induction l with
  | nil =>
    intro fs fs' h
    rw [copyFilesFrom] at h
    cases h
    exact ⟨fun q hq => hq, by simp⟩
  | cons n rest ih =>
    intro fs fs' h
    rw [copyFilesFrom] at h
    rcases hstat : fs.stat (joinPath src n) with _ | ⟨c⟩ | ⟨ns⟩
    · rw [hstat] at h
      cases h
    · rw [hstat] at h
      obtain ⟨mono, hall⟩ := ih _ fs' h
      constructor
      · intro q hq
        exact mono q (isFileNode_write_preserve fs (joinPath dst n) c q hq)
      · intro m hm
        rcases List.mem_cons.mp hm with h1 | h1
        · subst h1
          apply mono
          rw [stat_write, if_pos rfl]
          rfl
        · exact hall m h1
    · rw [hstat] at h
      cases h

/-- C8: copyCNIFiles fails mentioning `no files present` whenever the CNI
binary source directory is empty, fails mentioning `error reading CNI path`
whenever the source path cannot be read as a directory (absent or a regular
file), and on success every file found directly under the source directory is
present under `cniInstallDir` and the single CNI config source file is present
under `cniConfigInstallPath`. -/
theorem c8_copyCNIFiles_contract (b : winNodeBootstrapper) (fs : FileSys) :
    (fs.stat b.cniPath = some (.dir []) →
      errMentions (copyCNIFiles b fs) (str "no files present") = true)
    ∧ (isDirNode (fs.stat b.cniPath) = false →
      errMentions (copyCNIFiles b fs) (str "error reading CNI path") = true)
    ∧ (∀ names fs', fs.stat b.cniPath = some (.dir names) →
        copyCNIFiles b fs = .ok fs' →
        (∀ n ∈ names, isFileNode (fs'.stat (joinPath b.cniInstallDir n)) = true)
          ∧ isFileNode
              (fs'.stat (joinPath b.cniConfigInstallPath (baseName b.cniConfig))) = true) := by
  refine ⟨?_, ?_, ?_⟩
  · intro h
    rw [copyCNIFiles, h, errMentions]
    have heq : str "no files present in the CNI directory " ++ b.cniPath
        = str "no files present" ++ (str " in the CNI directory " ++ b.cniPath) := by
      simp [str]
    rw [heq]
    exact containsSub_self_append _ _
  · intro h
    have heq : str "error reading CNI path " ++ b.cniPath
        = str "error reading CNI path" ++ (str " " ++ b.cniPath) := by
      simp [str]
    rcases hstat : fs.stat b.cniPath with _ | ⟨c⟩ | ⟨ns⟩
    · rw [copyCNIFiles, hstat, errMentions, heq]
      exact containsSub_self_append _ _
    · rw [copyCNIFiles, hstat, errMentions, heq]
      exact containsSub_self_append _ _
    · rw [hstat] at h
      exact absurd h (by simp [isDirNode])
  · intro names fs' hstat hcopy
    rw [copyCNIFiles, hstat] at hcopy
    dsimp only at hcopy
    cases names with
    | nil => cases hcopy
    | cons n rest =>
      dsimp only at hcopy
      rcases hcf : copyFilesFrom b.cniPath b.cniInstallDir (n :: rest) fs with e | fs1
      · rw [hcf] at hcopy
        cases hcopy
      · rw [hcf] at hcopy
        dsimp only at hcopy
        rcases hcfg : fs1.stat b.cniConfig with _ | ⟨c⟩ | ⟨ns⟩
        · rw [hcfg] at hcopy
          cases hcopy
        · rw [hcfg] at hcopy
          cases hcopy
          obtain ⟨_, hall⟩ := copyFilesFrom_ok b.cniPath b.cniInstallDir (n :: rest) fs fs1 hcf
          constructor
          · intro m hm
            exact isFileNode_write_preserve fs1 _ c _ (hall m hm)
          · rw [stat_write, if_pos rfl]
            rfl
        · rw [hcfg] at hcopy
          cases hcopy

/-- Witness bootstrapper context for the input-check claims. -/
def b7 : winNodeBootstrapper := mkBootstrapper (str "C:/k") (str "C:/cni") (str "C:/cni.conf")

/-- A file system with no install directory. -/
def fs7a : FileSys := ⟨[]⟩

/-- A file system with the install directory but no CNI path. -/
def fs7b : FileSys := ⟨[(str "C:/k", .dir [])]⟩

/-- A file system where the CNI path is a regular file. -/
def fs7c : FileSys := ⟨[(str "C:/k", .dir []), (str "C:/cni", .file (str "x"))]⟩

/-- A file system where the CNI config path is a directory. -/
def fs7d : FileSys :=
  ⟨[(str "C:/k", .dir []), (str "C:/cni", .dir [str "a.exe"]), (str "C:/cni.conf", .dir [])]⟩

/-- Witness for C7: each hypothesis is discharged on a concrete file system
and the corresponding error message is produced. -/
theorem c7_witness :
    (fs7a.stat b7.installDir = none
      ∧ errMentions (checkCNIInputs b7 fs7a) (str "error accessing install directory") = true)
    ∧ (fs7b.stat b7.installDir = some (.dir []) ∧ fs7b.stat b7.cniPath = none
      ∧ errMentions (checkCNIInputs b7 fs7b) (str "error accessing CNI path") = true)
    ∧ (fs7c.stat b7.installDir = some (.dir []) ∧ fs7c.stat b7.cniPath = some (.file (str "x"))
      ∧ errMentions (checkCNIInputs b7 fs7c) (str "CNI path cannot be a file") = true)
    ∧ (fs7d.stat b7.installDir = some (.dir [])
      ∧ fs7d.stat b7.cniPath = some (.dir [str "a.exe"])
      ∧ fs7d.stat b7.cniConfig = some (.dir [])
      ∧ errMentions (checkCNIInputs b7 fs7d) (str "CNI config cannot be a directory") = true) :=
  ⟨⟨by decide, (c7_checkCNIInputs_errors b7 fs7a).1 (by decide)⟩,
    ⟨by decide, by decide,
      (c7_checkCNIInputs_errors b7 fs7b).2.1 (.dir []) (by decide) (by decide)⟩,
    ⟨by decide, by decide,
      (c7_checkCNIInputs_errors b7 fs7c).2.2.1 (.dir []) (str "x") (by decide) (by decide)⟩,
    ⟨by decide, by decide, by decide,
      (c7_checkCNIInputs_errors b7 fs7d).2.2.2 (.dir []) [str "a.exe"] (by decide) (by decide)
        [] (by decide)⟩⟩

/-- Witness bootstrapper context for the copy claims. -/
def b8 : winNodeBootstrapper :=
  mkBootstrapper (str "C:/k") (str "C:/cni") (str "C:/cni/cfg/cni.conf")

/-- An empty CNI source directory. -/
def fs8a : FileSys := ⟨[(str "C:/cni", .dir [])]⟩

/-- A file system where the CNI source path does not exist. -/
def fs8b : FileSys := ⟨[]⟩

/-- A populated CNI source directory plus the CNI config source file. -/
def fs8c : FileSys :=
  ⟨[(str "C:/cni", .dir [str "a.exe"]), (str "C:/cni/a.exe", .file (str "AA")),
    (str "C:/cni/cfg/cni.conf", .file (str "CC"))]⟩

/-- The file system after a successful copy: the binary under the CNI install
directory and the config under the CNI config install path. -/
def fs8res : FileSys :=
  ⟨[(str "C:/k/cni/config/cni.conf", .file (str "CC")),
    (str "C:/k/cni/a.exe", .file (str "AA")),
    (str "C:/cni", .dir [str "a.exe"]), (str "C:/cni/a.exe", .file (str "AA")),
    (str "C:/cni/cfg/cni.conf", .file (str "CC"))]⟩

/-- Witness for C8: the empty-directory and unreadable-path failures occur on
concrete file systems, and after a successful concrete copy the copied binary
and config are present at their install locations. -/
theorem c8_witness :
    (fs8a.stat b8.cniPath = some (.dir [])
      ∧ errMentions (copyCNIFiles b8 fs8a) (str "no files present") = true)
    ∧ (isDirNode (fs8b.stat b8.cniPath) = false
      ∧ errMentions (copyCNIFiles b8 fs8b) (str "error reading CNI path") = true)
    ∧ (fs8c.stat b8.cniPath = some (.dir [str "a.exe"])
      ∧ copyCNIFiles b8 fs8c = .ok fs8res
      ∧ (∀ n ∈ [str "a.exe"], isFileNode (fs8res.stat (joinPath b8.cniInstallDir n)) = true)
      ∧ isFileNode
          (fs8res.stat (joinPath b8.cniConfigInstallPath (baseName b8.cniConfig))) = true) :=
  ⟨⟨by decide, (c8_copyCNIFiles_contract b8 fs8a).1 (by decide)⟩,
    ⟨by decide, (c8_copyCNIFiles_contract b8 fs8b).2.1 (by decide)⟩,
    ⟨by decide, by decide,
      (c8_copyCNIFiles_contract b8 fs8c).2.2 [str "a.exe"] fs8res (by decide) (by decide)⟩⟩

/-! ### The worked-example cloud-config extraction -/

/-- The keys of the body lines of a rendered cloud-config file, in order: each
line between the braces, stripped of its leading tab, up to the colon. -/
def confLineKeys (c : Chars) : List Chars :=
  (((splitNl c).drop 1).dropLast).map (fun l => (l.drop 1).takeWhile (fun ch => !(ch = ':')))

/-- Are all body lines of a rendered cloud-config file tab-indented? -/
def confLinesTabbed (c : Chars) : Bool :=
  (((splitNl c).drop 1).dropLast).all (fun l => begins l (str "\t"))

/-- The data-URI source of the worked-example embedded cloud.conf (the Azure
cloud-provider configuration of the spec's worked example, with
resourceGroup=winc-test-rg). -/
def workedCloudConfURI : Chars := str "data:,%7B%0A%09%22cloud%22%3A%20%22AzurePublicCloud%22%2C%0A%09%22tenantId%22%3A%20%221234a1b2-a1bc-123a-123a-ab1c2de3afgh%22%2C%0A%09%22aadClientId%22%3A%20%22%22%2C%0A%09%22aadClientSecret%22%3A%20%22%22%2C%0A%09%22aadClientCertPath%22%3A%20%22%22%2C%0A%09%22aadClientCertPassword%22%3A%20%22%22%2C%0A%09%22useManagedIdentityExtension%22%3A%20true%2C%0A%09%22userAssignedIdentityID%22%3A%20%22%22%2C%0A%09%22subscriptionId%22%3A%20%221a123456-12ab-123a-1234-abc1d1ab01c0%22%2C%0A%09%22resourceGroup%22%3A%20%22winc-test-rg%22%2C%0A%09%22location%22%3A%20%22centralus%22%2C%0A%09%22vnetName%22%3A%20%22winc-test-vnet%22%2C%0A%09%22vnetResourceGroup%22%3A%20%22winc-test-rg%22%2C%0A%09%22subnetName%22%3A%20%22winc-test-node-subnet%22%2C%0A%09%22securityGroupName%22%3A%20%22winc-test-node-nsg%22%2C%0A%09%22routeTableName%22%3A%20%22winc-test-node-routetable%22%2C%0A%09%22primaryAvailabilitySetName%22%3A%20%22%22%2C%0A%09%22vmType%22%3A%20%22%22%2C%0A%09%22primaryScaleSetName%22%3A%20%22%22%2C%0A%09%22cloudProviderBackoff%22%3A%20true%2C%0A%09%22cloudProviderBackoffRetries%22%3A%200%2C%0A%09%22cloudProviderBackoffExponent%22%3A%200%2C%0A%09%22cloudProviderBackoffDuration%22%3A%206%2C%0A%09%22cloudProviderBackoffJitter%22%3A%200%2C%0A%09%22cloudProviderRateLimit%22%3A%20true%2C%0A%09%22cloudProviderRateLimitQPS%22%3A%206%2C%0A%09%22cloudProviderRateLimitBucket%22%3A%2010%2C%0A%09%22cloudProviderRateLimitQPSWrite%22%3A%206%2C%0A%09%22cloudProviderRateLimitBucketWrite%22%3A%2010%2C%0A%09%22useInstanceMetadata%22%3A%20true%2C%0A%09%22loadBalancerSku%22%3A%20%22standard%22%2C%0A%09%22excludeMasterFromStandardLB%22%3A%20null%2C%0A%09%22disableOutboundSNAT%22%3A%20null%2C%0A%09%22maximumLoadBalancerRuleCount%22%3A%200%0A%7D"

/-- The ExecStart command-line block of the worked-example kubelet unit. -/
def workedKubeletExec : Chars := str "/usr/bin/hyperkube \\\n    kubelet \\\n      --config=/etc/kubernetes/kubelet.conf \\\n      --bootstrap-kubeconfig=/etc/kubernetes/kubeconfig \\\n      --kubeconfig=/var/lib/kubelet/kubeconfig \\\n      --container-runtime=remote \\\n      --container-runtime-endpoint=/var/run/crio/crio.sock \\\n      --node-labels=node-role.kubernetes.io/worker,node.openshift.io/os_id=$\x7bID\x7d \\\n      --minimum-container-ttl-duration=6m0s \\\n      --volume-plugin-dir=/etc/kubernetes/kubelet-plugins/volume/exec \\\n      --cloud-provider=azure \\\n      --cloud-config=/etc/kubernetes/cloud.conf \\\n      --v=3"

/-- The worked-example ignition document: the embedded cloud.conf file entry
and the kubelet unit. -/
def workedIgnitionDoc : IgnitionDoc :=
  ⟨[⟨str "/etc/kubernetes/cloud.conf", workedCloudConfURI⟩], [⟨kubeletUnitName, workedKubeletExec⟩]⟩

/-- The install directory used for the worked example. -/
def c3dir : Chars := str "/tmp/wmcb"

/-- The expected rendered contents of `<installDir>/cloud.conf`. -/
def c3Contents : Chars := str "\x7b\n\tcloud: AzurePublicCloud,\n\ttenantId: 1234a1b2-a1bc-123a-123a-ab1c2de3afgh,\n\taadClientId: ,\n\taadClientSecret: ,\n\taadClientCertPath: ,\n\taadClientCertPassword: ,\n\tuseManagedIdentityExtension: true,\n\tuserAssignedIdentityID: ,\n\tsubscriptionId: 1a123456-12ab-123a-1234-abc1d1ab01c0,\n\tresourceGroup: winc-test-rg,\n\tlocation: centralus,\n\tvnetName: winc-test-vnet,\n\tvnetResourceGroup: winc-test-rg,\n\tsubnetName: winc-test-node-subnet,\n\tsecurityGroupName: winc-test-node-nsg,\n\trouteTableName: winc-test-node-routetable,\n\tprimaryAvailabilitySetName: ,\n\tvmType: ,\n\tprimaryScaleSetName: ,\n\tcloudProviderBackoff: true,\n\tcloudProviderBackoffRetries: 0,\n\tcloudProviderBackoffExponent: 0,\n\tcloudProviderBackoffDuration: 6,\n\tcloudProviderBackoffJitter: 0,\n\tcloudProviderRateLimit: true,\n\tcloudProviderRateLimitQPS: 6,\n\tcloudProviderRateLimitBucket: 10,\n\tcloudProviderRateLimitQPSWrite: 6,\n\tcloudProviderRateLimitBucketWrite: 10,\n\tuseInstanceMetadata: true,\n\tloadBalancerSku: standard,\n\texcludeMasterFromStandardLB: null,\n\tdisableOutboundSNAT: null,\n\tmaximumLoadBalancerRuleCount: 0\n\x7d"

/-- The expected kubelet argument map after the walk: the cloud-config entry
recorded by the extractor, followed by the unit's other flags. -/
def c3Args : List (Chars × Chars) :=
  [(str "cloud-config", str "/tmp/wmcb/cloud.conf"),
    (str "config", str "/etc/kubernetes/kubelet.conf"),
    (str "bootstrap-kubeconfig", str "/etc/kubernetes/kubeconfig"),
    (str "kubeconfig", str "/var/lib/kubelet/kubeconfig"),
    (str "container-runtime", str "remote"),
    (str "container-runtime-endpoint", str "/var/run/crio/crio.sock"),
    (str "node-labels", str "node-role.kubernetes.io/worker,node.openshift.io/os_id=$\x7bID\x7d"),
    (str "minimum-container-ttl-duration", str "6m0s"),
    (str "volume-plugin-dir", str "/etc/kubernetes/kubelet-plugins/volume/exec"),
    (str "cloud-provider", str "azure"),
    (str "v", str "3")]

/-- The worked example's cloud-config keys, in the source document's order. -/
def c3Keys : List Chars :=
  [str "cloud",
    str "tenantId",
    str "aadClientId",
    str "aadClientSecret",
    str "aadClientCertPath",
    str "aadClientCertPassword",
    str "useManagedIdentityExtension",
    str "userAssignedIdentityID",
    str "subscriptionId",
    str "resourceGroup",
    str "location",
    str "vnetName",
    str "vnetResourceGroup",
    str "subnetName",
    str "securityGroupName",
    str "routeTableName",
    str "primaryAvailabilitySetName",
    str "vmType",
    str "primaryScaleSetName",
    str "cloudProviderBackoff",
    str "cloudProviderBackoffRetries",
    str "cloudProviderBackoffExponent",
    str "cloudProviderBackoffDuration",
    str "cloudProviderBackoffJitter",
    str "cloudProviderRateLimit",
    str "cloudProviderRateLimitQPS",
    str "cloudProviderRateLimitBucket",
    str "cloudProviderRateLimitQPSWrite",
    str "cloudProviderRateLimitBucketWrite",
    str "useInstanceMetadata",
    str "loadBalancerSku",
    str "excludeMasterFromStandardLB",
    str "disableOutboundSNAT",
    str "maximumLoadBalancerRuleCount"]

set_option maxRecDepth 1000000 in
/-- C3: on the literal worked-example ignition document (embedded cloud.conf
plus the kubelet unit), the walker creates `<installDir>/cloud.conf` with the
expected contents and records the cloud-config kubelet argument: the contents
begin with a brace and end with a brace, every body line is tab-indented, the
body lines carry exactly the source document's keys in the source order —
including the `resourceGroup: winc-test-rg` line — and the kubelet argument
map's cloud-config entry is exactly `<installDir>/cloud.conf`. -/
theorem c3_worked_example_extraction :
    parseIgnitionFileContents c3dir workedIgnitionDoc []
      = .ok ⟨[(str "/tmp/wmcb/cloud.conf", c3Contents)], c3Args⟩
    ∧ ccDest c3dir = str "/tmp/wmcb/cloud.conf"
    ∧ begins c3Contents (str "\x7b") = true
    ∧ c3Contents.getLast? = some '\x7d'
    ∧ confLinesTabbed c3Contents = true
    ∧ confLineKeys c3Contents = c3Keys
    ∧ str "\tresourceGroup: winc-test-rg," ∈ splitNl c3Contents
    ∧ alookup c3Args ccKeyChars = some (str "/tmp/wmcb/cloud.conf") := by
  refine ⟨by decide, by decide, by decide, by decide, by decide, by decide, by decide, by decide⟩
